import Mathlib

/-!
Verification of the LorentzArena relativistic physics core.

The definitions below are a shallow embedding of the TypeScript sources:
JavaScript numbers are modelled as real numbers, arrays as lists, and
nullable results as Option. Each definition keeps the name and structure
of the source function it embeds.

Sources embedded here:
- src/src/physics/vector.ts      (Vector3, Vector4, gamma, Minkowski dot)
- src/src/physics/matrix.ts      (Matrix4, lorentzBoost, inverseLorentzBoost)
- src/unnamed/part_011           (PhaseSpace, evolvePhaseSpace)
- src/1+1/src/physics/worldLine.ts (WorldLine, appendWorldLine,
    findLightlikeIntersectionParam, findLatestIndexAtOrBeforeTime,
    pastLightConeIntersectionWorldLine; the canonical raw-endpoint variant)
- src/src/physics/worldLine.ts   (the interpolating variant, namespace Interp)
- src/2+1/src/components/RelativisticGame.tsx lines 959-972
    (the inline causality guard, named isMotionAllowed after the spec)
-/

namespace LorentzArena

noncomputable section

/-- Embeds Vector3 from src/src/physics/vector.ts: three real components. -/
structure Vector3 where
  x : ℝ
  y : ℝ
  z : ℝ

/-- Embeds createVector3. -/
def createVector3 (x y z : ℝ) : Vector3 := ⟨x, y, z⟩

/-- Embeds vector3Zero. -/
def vector3Zero : Vector3 := createVector3 0 0 0

/-- Embeds addVector3. -/
def addVector3 (a b : Vector3) : Vector3 :=
  createVector3 (a.x + b.x) (a.y + b.y) (a.z + b.z)

/-- Embeds subVector3. -/
def subVector3 (a b : Vector3) : Vector3 :=
  createVector3 (a.x - b.x) (a.y - b.y) (a.z - b.z)

/-- Embeds scaleVector3. -/
def scaleVector3 (v : Vector3) (scalar : ℝ) : Vector3 :=
  createVector3 (v.x * scalar) (v.y * scalar) (v.z * scalar)

/-- Embeds dotVector3. -/
def dotVector3 (a b : Vector3) : ℝ :=
  a.x * b.x + a.y * b.y + a.z * b.z

/-- Embeds lengthSquaredVector3. -/
def lengthSquaredVector3 (v : Vector3) : ℝ := dotVector3 v v

/-- Embeds gamma: the Lorentz factor from the spatial part of the
4-velocity, sqrt(1 + |u|^2). -/
def gamma (u : Vector3) : ℝ :=
  Real.sqrt (1 + lengthSquaredVector3 u)

/-- Embeds Vector4 from src/src/physics/vector.ts: a spacetime vector
(t, x, y, z). -/
structure Vector4 where
  t : ℝ
  x : ℝ
  y : ℝ
  z : ℝ

/-- Embeds createVector4. -/
def createVector4 (t x y z : ℝ) : Vector4 := ⟨t, x, y, z⟩

/-- Embeds vector4Zero. -/
def vector4Zero : Vector4 := createVector4 0 0 0 0

/-- Embeds addVector4. -/
def addVector4 (a b : Vector4) : Vector4 :=
  createVector4 (a.t + b.t) (a.x + b.x) (a.y + b.y) (a.z + b.z)

/-- Embeds subVector4. -/
def subVector4 (a b : Vector4) : Vector4 :=
  createVector4 (a.t - b.t) (a.x - b.x) (a.y - b.y) (a.z - b.z)

/-- Embeds scaleVector4. -/
def scaleVector4 (v : Vector4) (scalar : ℝ) : Vector4 :=
  createVector4 (v.t * scalar) (v.x * scalar) (v.y * scalar) (v.z * scalar)

/-- Embeds lorentzDotVector4: the Minkowski inner product with signature
(+,+,+,-), x*x + y*y + z*z - t*t. -/
def lorentzDotVector4 (a b : Vector4) : ℝ :=
  a.x * b.x + a.y * b.y + a.z * b.z - a.t * b.t

/-- Embeds spatialVector4. -/
def spatialVector4 (v : Vector4) : Vector3 :=
  createVector3 v.x v.y v.z

/-- Embeds getVelocity4: the full 4-velocity (gamma(u), u). -/
def getVelocity4 (u : Vector3) : Vector4 :=
  createVector4 (gamma u) u.x u.y u.z

/-- Embeds Matrix4 from src/src/physics/matrix.ts: a 4x4 matrix stored as
a flat row-major array, data[row*4 + col]. The array is modelled as a
total function on indices; the algorithms only ever read indices 0..15. -/
structure Matrix4 where
  data : ℕ → ℝ

/-- Embeds getMatrix4: element (row, col) at data[row*4 + col]. -/
def getMatrix4 (m : Matrix4) (row col : ℕ) : ℝ :=
  m.data (row * 4 + col)

/-- Embeds matrix4Identity. -/
def matrix4Identity : Matrix4 :=
  ⟨fun i =>
    if i = 0 then 1 else if i = 5 then 1 else
    if i = 10 then 1 else if i = 15 then 1 else 0⟩

/-- Embeds lorentzBoost from src/src/physics/matrix.ts: the boost matrix
built from the spatial part of the 4-velocity, transforming world frame
into comoving frame. When u2 = 0 it returns the identity matrix through
the explicit branch; otherwise the sixteen entries written by
setMultipleMatrix4 are laid out row-major below. -/
def lorentzBoost (u : Vector3) : Matrix4 :=
  let ux := u.x
  let uy := u.y
  let uz := u.z
  let ut := gamma u
  let u2 := ux * ux + uy * uy + uz * uz
  if u2 = 0 then matrix4Identity
  else
    ⟨fun i =>
      if i = 0 then ut else if i = 1 then -ux else
      if i = 2 then -uy else if i = 3 then -uz else
      if i = 4 then -ux else
      if i = 5 then (ut * ux * ux + uy * uy + uz * uz) / u2 else
      if i = 6 then ((ut - 1) * ux * uy) / u2 else
      if i = 7 then ((ut - 1) * ux * uz) / u2 else
      if i = 8 then -uy else
      if i = 9 then ((ut - 1) * ux * uy) / u2 else
      if i = 10 then (ux * ux + ut * uy * uy + uz * uz) / u2 else
      if i = 11 then ((ut - 1) * uy * uz) / u2 else
      if i = 12 then -uz else
      if i = 13 then ((ut - 1) * ux * uz) / u2 else
      if i = 14 then ((ut - 1) * uy * uz) / u2 else
      if i = 15 then (ux * ux + uy * uy + ut * uz * uz) / u2 else 0⟩

/-- Embeds inverseLorentzBoost: the boost with the velocity sign flipped. -/
def inverseLorentzBoost (velocity : Vector3) : Matrix4 :=
  lorentzBoost (scaleVector3 velocity (-1))

/-- Embeds multiplyVector4Matrix4: the standard matrix-vector product. -/
def multiplyVector4Matrix4 (m : Matrix4) (v : Vector4) : Vector4 :=
  createVector4
    (getMatrix4 m 0 0 * v.t + getMatrix4 m 0 1 * v.x +
      getMatrix4 m 0 2 * v.y + getMatrix4 m 0 3 * v.z)
    (getMatrix4 m 1 0 * v.t + getMatrix4 m 1 1 * v.x +
      getMatrix4 m 1 2 * v.y + getMatrix4 m 1 3 * v.z)
    (getMatrix4 m 2 0 * v.t + getMatrix4 m 2 1 * v.x +
      getMatrix4 m 2 2 * v.y + getMatrix4 m 2 3 * v.z)
    (getMatrix4 m 3 0 * v.t + getMatrix4 m 3 1 * v.x +
      getMatrix4 m 3 2 * v.y + getMatrix4 m 3 3 * v.z)

/-- Embeds PhaseSpace from src/unnamed/part_011: a 4-position plus the
spatial part of the 4-velocity. -/
structure PhaseSpace where
  pos : Vector4
  u : Vector3

/-- Embeds createPhaseSpace. -/
def createPhaseSpace (pos : Vector4) (u : Vector3) : PhaseSpace := ⟨pos, u⟩

/-- Embeds evolvePhaseSpace from src/unnamed/part_011: proper-time Euler
step under a proper acceleration given in the instantaneous rest frame. -/
def evolvePhaseSpace (ps : PhaseSpace) (properAcceleration : Vector3)
    (dTau : ℝ) : PhaseSpace :=
  let accel4Rest := createVector4 0
    properAcceleration.x properAcceleration.y properAcceleration.z
  let boostMatrix := inverseLorentzBoost ps.u
  let accel4World := multiplyVector4Matrix4 boostMatrix accel4Rest
  let newU := addVector3 ps.u (scaleVector3 (spatialVector4 accel4World) dTau)
  let newPos := addVector4 ps.pos (scaleVector4 (getVelocity4 newU) dTau)
  createPhaseSpace newPos newU

/-- Embeds WorldLine from src/1+1/src/physics/worldLine.ts: a bounded
history of PhaseSpace samples. -/
structure WorldLine where
  history : List PhaseSpace
  maxHistorySize : ℕ

/-- Embeds createWorldLine (default capacity 1000). -/
def createWorldLine (maxHistorySize : ℕ := 1000) : WorldLine :=
  ⟨[], maxHistorySize⟩

/-- Embeds appendWorldLine: push the snapshot, then drop the oldest
element (array shift) when the length exceeds maxHistorySize. -/
def appendWorldLine (wl : WorldLine) (phaseSpace : PhaseSpace) : WorldLine :=
  let newHistory := wl.history ++ [phaseSpace]
  if newHistory.length > wl.maxHistorySize then
    { wl with history := newHistory.tail }
  else
    { wl with history := newHistory }

/-- Placeholder sample used to model JavaScript array indexing as a total
function; the embedded algorithms only read indices inside the history. -/
def phaseSpaceZero : PhaseSpace := ⟨vector4Zero, vector3Zero⟩

/-- Reads history[i]; out-of-range reads (which the embedded algorithms
never perform) give the placeholder sample. -/
def histGet (history : List PhaseSpace) (i : ℕ) : PhaseSpace :=
  history.getD i phaseSpaceZero

/-- Embeds findLightlikeIntersectionParam from src/1+1/src/physics/worldLine.ts:
solves the quadratic a t^2 - 2 b t + c = 0 for the parameter where the
segment from pos1 to pos2 crosses the past light cone of observerPos,
returning -1 when the discriminant is negative. -/
def findLightlikeIntersectionParam (pos1 pos2 observerPos : Vector4) : ℝ :=
  let dx := subVector4 pos2 pos1
  let x0 := subVector4 observerPos pos1
  let a := lorentzDotVector4 dx dx
  let b := lorentzDotVector4 dx x0
  let c := lorentzDotVector4 x0 x0
  let discriminant := b * b - a * c
  if discriminant < 0 then -1
  else
    let sqrtDiscriminant := Real.sqrt discriminant
    (b + sqrtDiscriminant) / a

/-- Embeds the binary-search loop of findLatestIndexAtOrBeforeTime:
narrows [left, right] with the invariant history[left].t <= t <
history[right].t until the window has width one, then returns left. -/
def findLatestIndexLoop (history : List PhaseSpace) (t : ℝ)
    (left right : ℕ) : ℕ :=
  if _h : right - left > 1 then
    if (histGet history ((left + right) / 2)).pos.t ≤ t then
      findLatestIndexLoop history t ((left + right) / 2) right
    else
      findLatestIndexLoop history t left ((left + right) / 2)
  else left
termination_by right - left
decreasing_by
  all_goals omega

/-- Embeds findLatestIndexAtOrBeforeTime: the latest index k with
history[k].pos.t <= t, or -1 when even history[0] is in the future. -/
def findLatestIndexAtOrBeforeTime (history : List PhaseSpace) (t : ℝ) : ℤ :=
  if history.length = 0 then -1
  else if (histGet history 0).pos.t > t then -1
  else if (histGet history (history.length - 1)).pos.t ≤ t then
    (history.length : ℤ) - 1
  else
    (findLatestIndexLoop history t 0 (history.length - 1) : ℤ)

/-- Embeds the backward scan loop of pastLightConeIntersectionWorldLine:
for i from the start index down to 1, look at the segment from
history[i-1] to history[i]; skip it when both endpoints are at or after
the observer time, return history[i-1] when the null-crossing parameter
lies in [0,1], otherwise continue with i-1. -/
def pastLightConeScan (history : List PhaseSpace)
    (observerPosition : Vector4) (i : ℕ) : Option PhaseSpace :=
  if i = 0 then none
  else
    let state := histGet history i
    let prevState := histGet history (i - 1)
    let sepPrev := subVector4 observerPosition prevState.pos
    let sepCurr := subVector4 observerPosition state.pos
    if sepPrev.t ≤ 0 ∧ sepCurr.t ≤ 0 then
      pastLightConeScan history observerPosition (i - 1)
    else
      let tParam := findLightlikeIntersectionParam
        prevState.pos state.pos observerPosition
      if 0 ≤ tParam ∧ tParam ≤ 1 then some prevState
      else pastLightConeScan history observerPosition (i - 1)
termination_by i
decreasing_by
  all_goals omega

/-- Embeds pastLightConeIntersectionWorldLine from
src/1+1/src/physics/worldLine.ts: binary-search for the newest sample at
or before the observer time, then scan backward from one past it for the
first segment crossing the past light cone, returning the older endpoint
of that segment. -/
def pastLightConeIntersectionWorldLine (wl : WorldLine)
    (observerPosition : Vector4) : Option PhaseSpace :=
  let history := wl.history
  if history.length = 0 then none
  else
    let lastPastIdx := findLatestIndexAtOrBeforeTime history observerPosition.t
    if lastPastIdx < 0 then none
    else
      let startIdx := min ((history.length : ℤ) - 1) (lastPastIdx + 1)
      pastLightConeScan history observerPosition startIdx.toNat

/-- Embeds clearWorldLine. -/
def clearWorldLine (wl : WorldLine) : WorldLine :=
  { wl with history := [] }

/-- The start index of the backward scan, exactly as
pastLightConeIntersectionWorldLine computes it:
min(history.length - 1, lastPastIdx + 1). -/
def startScanIdx (wl : WorldLine) (observerPosition : Vector4) : ℕ :=
  (min ((wl.history.length : ℤ) - 1)
    (findLatestIndexAtOrBeforeTime wl.history observerPosition.t + 1)).toNat

/-- States that the backward scan hits segment i (for i >= 1, the segment
from history[i-1] to history[i]): the segment is not skipped by the
both-endpoints-in-the-future test and its null-crossing parameter lies in
[0,1]. This is exactly the condition under which the loop body of
pastLightConeIntersectionWorldLine returns. -/
def segmentHit (history : List PhaseSpace) (observerPosition : Vector4)
    (i : ℕ) : Prop :=
  let state := histGet history i
  let prevState := histGet history (i - 1)
  let sepPrev := subVector4 observerPosition prevState.pos
  let sepCurr := subVector4 observerPosition state.pos
  let tParam := findLightlikeIntersectionParam
    prevState.pos state.pos observerPosition
  ¬(sepPrev.t ≤ 0 ∧ sepCurr.t ≤ 0) ∧ 0 ≤ tParam ∧ tParam ≤ 1

/-- Embeds the inline causality guard of the game loop
(src/2+1/src/components/RelativisticGame.tsx lines 963-971), under the
name the specification gives it: walking the other agents, an agent whose
recorded event is not later than the own time and whose separation from
the own position is timelike (negative Minkowski square) makes the guard
reject the motion (return false). -/
def isMotionAllowed (selfPos : Vector4) : List Vector4 → Bool
  | [] => true
  | e :: rest =>
    if e.t > selfPos.t then isMotionAllowed selfPos rest
    else if lorentzDotVector4 (subVector4 e selfPos) (subVector4 e selfPos)
        < 0 then false
    else isMotionAllowed selfPos rest

/-- Models the setPlayers callback outcome around the guard
(src/2+1/src/components/RelativisticGame.tsx lines 959-972): when the
guard rejects, the callback returns the previous state unchanged and the
whole tick update is skipped; otherwise the proposed update goes through. -/
def guardedUpdate (self : PhaseSpace) (others : List Vector4)
    (proposed : PhaseSpace) : PhaseSpace :=
  if isMotionAllowed self.pos others then proposed else self

end

namespace Interp

/-- Embeds the PhaseSpace type that src/src/physics/worldLine.ts actually
dereferences (fields position4 and velocity4), the class-based historical
shape kept by that superseded variant. -/
structure PhaseSpace where
  position4 : LorentzArena.Vector4
  velocity4 : LorentzArena.Vector4

/-- Embeds the createPhaseSpace constructor used by interpolateStates. -/
def createPhaseSpace (position4 velocity4 : LorentzArena.Vector4) :
    PhaseSpace := ⟨position4, velocity4⟩

/-- Embeds the WorldLine type of src/src/physics/worldLine.ts. -/
structure WorldLine where
  history : List PhaseSpace
  maxHistorySize : ℕ

noncomputable section

/-- Modelled from the spec: intervalSquaredVector4 is imported by
src/src/physics/worldLine.ts but missing from the repository sources; the
spec fixes the Minkowski inner product with signature (+,+,+,-)
throughout, so the squared interval of v is that product of v with
itself. -/
def intervalSquaredVector4 (v : LorentzArena.Vector4) : ℝ :=
  LorentzArena.lorentzDotVector4 v v

/-- Placeholder for out-of-range indexing, as in the canonical variant. -/
def phaseSpaceZero : PhaseSpace :=
  ⟨LorentzArena.vector4Zero, LorentzArena.vector4Zero⟩

/-- Reads history[i] in the interpolating variant. -/
def histGet (history : List PhaseSpace) (i : ℕ) : PhaseSpace :=
  history.getD i phaseSpaceZero

/-- Embeds findLightlikeIntersectionTime from src/src/physics/worldLine.ts:
solves a t^2 + b t + c = 0 and picks a root in [0,1] whose crossing point
lies in the observer past, returning -1 when there is none. -/
def findLightlikeIntersectionTime
    (pos1 pos2 observerPos : LorentzArena.Vector4) : ℝ :=
  let dx := LorentzArena.subVector4 pos2 pos1
  let x0 := LorentzArena.subVector4 pos1 observerPos
  let a := intervalSquaredVector4 dx
  let b := 2 * (x0.t * dx.t - x0.x * dx.x - x0.y * dx.y - x0.z * dx.z)
  let c := intervalSquaredVector4 x0
  let discriminant := b * b - 4 * a * c
  if discriminant < 0 then -1
  else
    let sqrtDiscriminant := Real.sqrt discriminant
    let t1 := (-b - sqrtDiscriminant) / (2 * a)
    let t2 := (-b + sqrtDiscriminant) / (2 * a)
    if 0 ≤ t1 ∧ t1 ≤ 1 ∧
        0 < (LorentzArena.subVector4 observerPos
          (LorentzArena.addVector4 pos1 (LorentzArena.scaleVector4 dx t1))).t
      then t1
    else if 0 ≤ t2 ∧ t2 ≤ 1 ∧
        0 < (LorentzArena.subVector4 observerPos
          (LorentzArena.addVector4 pos1 (LorentzArena.scaleVector4 dx t2))).t
      then t2
    else -1

/-- Embeds interpolateStates: linear interpolation of position4 and
velocity4 between two samples. -/
def interpolateStates (state1 state2 : PhaseSpace) (t : ℝ) : PhaseSpace :=
  let pos := LorentzArena.addVector4 state1.position4
    (LorentzArena.scaleVector4
      (LorentzArena.subVector4 state2.position4 state1.position4) t)
  let vel := LorentzArena.addVector4 state1.velocity4
    (LorentzArena.scaleVector4
      (LorentzArena.subVector4 state2.velocity4 state1.velocity4) t)
  createPhaseSpace pos vel

/-- Embeds the while loop of findRelevantInterval: shrink [left, right]
until left = right, moving right to mid when history[mid] is at or before
the observer time and left past mid otherwise. -/
def findRelevantIntervalLoop (history : List PhaseSpace)
    (observerTime : ℝ) (left right : ℕ) : ℕ :=
  if _h : left < right then
    if (histGet history ((left + right) / 2)).position4.t ≤ observerTime then
      findRelevantIntervalLoop history observerTime left ((left + right) / 2)
    else
      findRelevantIntervalLoop history observerTime ((left + right) / 2 + 1) right
  else left
termination_by right - left
decreasing_by
  all_goals omega

/-- Embeds findRelevantInterval from src/src/physics/worldLine.ts. -/
def findRelevantInterval (history : List PhaseSpace)
    (observerTime : ℝ) : Option (ℕ × ℕ) :=
  if history.length = 0 then none
  else if (histGet history (history.length - 1)).position4.t > observerTime
    then none
  else if (histGet history 0).position4.t ≤ observerTime then
    some (0, history.length - 1)
  else
    some (findRelevantIntervalLoop history observerTime 0
      (history.length - 1), history.length - 1)

/-- Embeds the backward for loop of the interpolating
pastLightConeIntersectionWorldLine: from endIdx down to startIdx + 1,
interpolate at a null crossing in [0,1], or return the nearly lightlike
newer endpoint, or continue. -/
def scanLoop (history : List PhaseSpace)
    (observerPosition : LorentzArena.Vector4) (startIdx : ℕ) (i : ℕ) :
    Option PhaseSpace :=
  if _h : i > startIdx then
    let state := histGet history i
    let prevState := histGet history (i - 1)
    let sep1 := LorentzArena.subVector4 observerPosition prevState.position4
    let sep2 := LorentzArena.subVector4 observerPosition state.position4
    if sep1.t ≤ 0 ∧ sep2.t ≤ 0 then
      scanLoop history observerPosition startIdx (i - 1)
    else
      let t := findLightlikeIntersectionTime
        prevState.position4 state.position4 observerPosition
      if 0 ≤ t ∧ t ≤ 1 then some (interpolateStates prevState state t)
      else
        let interval1 := intervalSquaredVector4 sep1
        let interval2 := intervalSquaredVector4 sep2
        if 0 < sep2.t ∧ (sep1.t ≤ 0 ∨ |interval2| < |interval1|) then
          if |interval2| < 0.1 then some state
          else scanLoop history observerPosition startIdx (i - 1)
        else scanLoop history observerPosition startIdx (i - 1)
  else none
termination_by i
decreasing_by
  all_goals omega

/-- Embeds pastLightConeIntersectionWorldLine from
src/src/physics/worldLine.ts: the interpolating variant, including its
explicit single-sample branch. -/
def pastLightConeIntersectionWorldLine (wl : WorldLine)
    (observerPosition : LorentzArena.Vector4) : Option PhaseSpace :=
  if wl.history.length = 0 then none
  else if wl.history.length = 1 then
    let state := histGet wl.history 0
    let separation := LorentzArena.subVector4 observerPosition state.position4
    if 0 < separation.t then some state else none
  else
    match findRelevantInterval wl.history observerPosition.t with
    | none => none
    | some (startIdx, endIdx) =>
      match scanLoop wl.history observerPosition startIdx endIdx with
      | some r => some r
      | none =>
        let firstState := histGet wl.history startIdx
        let separation := LorentzArena.subVector4 observerPosition
          firstState.position4
        if 0 < separation.t then some firstState else none

end

end Interp

end LorentzArena

namespace LorentzArena

/-- Concrete input for the null-separation scenario: a stationary emitter
sampled at (t=0, x=10, y=0, z=0) with u = 0. -/
def emitterSample : PhaseSpace := ⟨⟨0, 10, 0, 0⟩, ⟨0, 0, 0⟩⟩

/-- The same stationary emitter sampled one tick later, at t = 1. -/
def emitterSample1 : PhaseSpace := ⟨⟨1, 10, 0, 0⟩, ⟨0, 0, 0⟩⟩

/-- The observer event (t=10, x=0, y=0, z=0) of the scenario. -/
def observerEvent : Vector4 := ⟨10, 0, 0, 0⟩

/-- The stationary emitter sample in the shape the interpolating variant
reads: position4 = (0,10,0,0) and velocity4 = (1,0,0,0), the 4-velocity
of a body at rest. -/
def interpEmitterSample : Interp.PhaseSpace := ⟨⟨0, 10, 0, 0⟩, ⟨1, 0, 0, 0⟩⟩

/-- Concrete sample lying strictly in the observer future, at t = 5. -/
def futureSample : PhaseSpace := ⟨⟨5, 0, 0, 0⟩, ⟨0, 0, 0⟩⟩

/-- The origin event. -/
def originEvent : Vector4 := ⟨0, 0, 0, 0⟩

/-- Concrete sample at the origin, used by the append witnesses. -/
def sampleA : PhaseSpace := ⟨⟨0, 0, 0, 0⟩, ⟨0, 0, 0⟩⟩

/-- Concrete sample at t = 1, used by the append witnesses. -/
def sampleB : PhaseSpace := ⟨⟨1, 0, 0, 0⟩, ⟨0, 0, 0⟩⟩

/-- The gamma factor is strictly positive for every velocity. -/
lemma gamma_pos (u : Vector3) : 0 < gamma u := by
  unfold gamma lengthSquaredVector3 dotVector3
  apply Real.sqrt_pos.mpr
  nlinarith [mul_self_nonneg u.x, mul_self_nonneg u.y, mul_self_nonneg u.z]

/-- The evolved time component is the old one plus gamma times the step. -/
lemma evolvePhaseSpace_pos_t (ps : PhaseSpace) (a : Vector3) (dTau : ℝ) :
    (evolvePhaseSpace ps a dTau).pos.t =
      ps.pos.t + gamma ((evolvePhaseSpace ps a dTau).u) * dTau := rfl

/-- The Minkowski square of the full 4-velocity is -1 for every u. -/
lemma velocity4_norm (u : Vector3) :
    lorentzDotVector4 (getVelocity4 u) (getVelocity4 u) = -1 := by
  simp only [lorentzDotVector4, getVelocity4, createVector4, gamma,
    lengthSquaredVector3, dotVector3]
  rw [Real.mul_self_sqrt
    (by nlinarith [mul_self_nonneg u.x, mul_self_nonneg u.y,
      mul_self_nonneg u.z])]
  ring

/-- The boost built from the zero velocity is the identity matrix. -/
lemma boost_zero : inverseLorentzBoost ⟨0, 0, 0⟩ = matrix4Identity := by
  unfold inverseLorentzBoost lorentzBoost scaleVector3 createVector3
  norm_num

/-- The guard returns false exactly when some listed event is at or before
the own time and timelike-separated from the own position. -/
lemma isMotionAllowed_false_iff (selfPos : Vector4) (others : List Vector4) :
    isMotionAllowed selfPos others = false ↔
      ∃ e ∈ others, e.t ≤ selfPos.t ∧
        lorentzDotVector4 (subVector4 e selfPos) (subVector4 e selfPos) < 0 := by
  induction others with
  | nil => simp [isMotionAllowed]
  | cons e rest ih =>
    unfold isMotionAllowed
    by_cases ht : e.t > selfPos.t
    · rw [if_pos ht]
      simp only [List.mem_cons]
      constructor
      · intro h
        obtain ⟨f, hf, hc⟩ := ih.mp h
        exact ⟨f, Or.inr hf, hc⟩
      · intro ⟨f, hf, hc⟩
        rcases hf with rfl | hf
        · exact absurd hc.1 (not_le.mpr ht)
        · exact ih.mpr ⟨f, hf, hc⟩
    · rw [if_neg ht]
      by_cases hl : lorentzDotVector4 (subVector4 e selfPos)
          (subVector4 e selfPos) < 0
      · rw [if_pos hl]
        simp only [List.mem_cons, true_iff]
        exact ⟨e, Or.inl rfl, le_of_not_lt ht, hl⟩
      · rw [if_neg hl]
        simp only [List.mem_cons]
        constructor
        · intro h
          obtain ⟨f, hf, hc⟩ := ih.mp h
          exact ⟨f, Or.inr hf, hc⟩
        · intro ⟨f, hf, hc⟩
          rcases hf with rfl | hf
          · exact absurd hc.2 hl
          · exact ih.mpr ⟨f, hf, hc⟩

/-- Appending preserves the capacity field. -/
lemma appendWorldLine_maxHistorySize (wl : WorldLine) (ps : PhaseSpace) :
    (appendWorldLine wl ps).maxHistorySize = wl.maxHistorySize := by
  simp only [appendWorldLine]
  split <;> rfl

/-- While the length invariant holds, appending keeps the suffix of the
extended history that fits the capacity. -/
lemma appendWorldLine_history (wl : WorldLine) (ps : PhaseSpace)
    (hlen : wl.history.length ≤ wl.maxHistorySize) :
    (appendWorldLine wl ps).history =
      (wl.history ++ [ps]).drop (wl.history.length + 1 - wl.maxHistorySize) := by
  simp only [appendWorldLine]
  split
  · next h =>
    simp only [List.length_append, List.length_singleton] at h
    have h1 : wl.history.length + 1 - wl.maxHistorySize = 1 := by omega
    rw [h1, List.drop_one]
  · next h =>
    simp only [List.length_append, List.length_singleton] at h
    have h1 : wl.history.length + 1 - wl.maxHistorySize = 0 := by omega
    rw [h1, List.drop_zero]

/-- Folding a list of appends keeps exactly the suffix that fits the
capacity, starting from any world line within its capacity. -/
lemma foldl_appendWorldLine (l : List PhaseSpace) :
    ∀ wl : WorldLine, wl.history.length ≤ wl.maxHistorySize →
      (l.foldl appendWorldLine wl).history =
        (wl.history ++ l).drop
          (wl.history.length + l.length - wl.maxHistorySize) ∧
      (l.foldl appendWorldLine wl).maxHistorySize = wl.maxHistorySize := by
  induction l with
  | nil =>
    intro wl hlen
    simp only [List.foldl_nil, List.append_nil, List.length_nil]
    constructor
    · have : wl.history.length + 0 - wl.maxHistorySize = 0 := by omega
      rw [this, List.drop_zero]
    · trivial
  | cons x xs ih =>
    intro wl hlen
    simp only [List.foldl_cons, List.length_cons]
    have hmax := appendWorldLine_maxHistorySize wl x
    have hhist := appendWorldLine_history wl x hlen
    have hlen2 : (appendWorldLine wl x).history.length ≤
        (appendWorldLine wl x).maxHistorySize := by
      rw [hmax, hhist]
      simp only [List.length_drop, List.length_append, List.length_singleton]
      omega
    obtain ⟨ih1, ih2⟩ := ih (appendWorldLine wl x) hlen2
    rw [ih2, hmax]
    refine ⟨?_, rfl⟩
    rw [ih1, hhist, hmax]
    simp only [List.length_drop, List.length_append, List.length_singleton]
    rw [← List.drop_append_of_le_length
      (by simp only [List.length_append, List.length_singleton]; omega :
        wl.history.length + 1 - wl.maxHistorySize ≤ (wl.history ++ [x]).length)]
    rw [List.drop_drop, List.append_assoc, List.singleton_append]
    congr 1
    omega

/-- The backward scan at index zero finds nothing. -/
lemma pastLightConeScan_zero (history : List PhaseSpace) (obs : Vector4) :
    pastLightConeScan history obs 0 = none := by
  rw [pastLightConeScan]
  simp

/-- One unfolding of the backward scan at a nonzero index. -/
lemma pastLightConeScan_succ (history : List PhaseSpace) (obs : Vector4)
    (i : ℕ) (hi : i ≠ 0) :
    pastLightConeScan history obs i =
      if (subVector4 obs (histGet history (i - 1)).pos).t ≤ 0 ∧
          (subVector4 obs (histGet history i).pos).t ≤ 0 then
        pastLightConeScan history obs (i - 1)
      else if 0 ≤ findLightlikeIntersectionParam (histGet history (i - 1)).pos
            (histGet history i).pos obs ∧
          findLightlikeIntersectionParam (histGet history (i - 1)).pos
            (histGet history i).pos obs ≤ 1 then
        some (histGet history (i - 1))
      else pastLightConeScan history obs (i - 1) := by
  conv_lhs => rw [pastLightConeScan]
  rw [if_neg hi]

/-- Unfolded form of the hit condition of segment i. -/
lemma segmentHit_def (history : List PhaseSpace) (obs : Vector4) (i : ℕ) :
    segmentHit history obs i ↔
      (¬((subVector4 obs (histGet history (i - 1)).pos).t ≤ 0 ∧
          (subVector4 obs (histGet history i).pos).t ≤ 0) ∧
        0 ≤ findLightlikeIntersectionParam (histGet history (i - 1)).pos
          (histGet history i).pos obs ∧
        findLightlikeIntersectionParam (histGet history (i - 1)).pos
          (histGet history i).pos obs ≤ 1) := Iff.rfl

/-- A non-hitting segment is passed over by the scan. -/
lemma pastLightConeScan_no_hit (history : List PhaseSpace) (obs : Vector4)
    (i : ℕ) (hi : i ≠ 0) (h : ¬ segmentHit history obs i) :
    pastLightConeScan history obs i = pastLightConeScan history obs (i - 1) := by
  rw [pastLightConeScan_succ history obs i hi]
  by_cases hskip : (subVector4 obs (histGet history (i - 1)).pos).t ≤ 0 ∧
      (subVector4 obs (histGet history i).pos).t ≤ 0
  · rw [if_pos hskip]
  · rw [if_neg hskip]
    by_cases hrange : 0 ≤ findLightlikeIntersectionParam
        (histGet history (i - 1)).pos (histGet history i).pos obs ∧
        findLightlikeIntersectionParam (histGet history (i - 1)).pos
          (histGet history i).pos obs ≤ 1
    · exact absurd ((segmentHit_def history obs i).mpr
        ⟨hskip, hrange.1, hrange.2⟩) h
    · rw [if_neg hrange]

/-- A hitting segment makes the scan return its older endpoint. -/
lemma pastLightConeScan_hit (history : List PhaseSpace) (obs : Vector4)
    (i : ℕ) (hi : i ≠ 0) (h : segmentHit history obs i) :
    pastLightConeScan history obs i = some (histGet history (i - 1)) := by
  rw [pastLightConeScan_succ history obs i hi]
  rw [segmentHit_def] at h
  obtain ⟨hskip, hrange⟩ := h
  rw [if_neg hskip, if_pos hrange]

/-- The scan starting at n returns the older endpoint of the hitting
segment with the greatest index, when no later segment up to n hits. -/
lemma pastLightConeScan_first_hit (history : List PhaseSpace) (obs : Vector4) :
    ∀ n j : ℕ, 1 ≤ j → j ≤ n → segmentHit history obs j →
      (∀ k, j < k → k ≤ n → ¬ segmentHit history obs k) →
      pastLightConeScan history obs n = some (histGet history (j - 1)) := by
  intro n
  induction n with
  | zero =>
    intro j h1 hj _ _
    omega
  | succ m ih =>
    intro j h1 hj hhit hmax
    by_cases hje : j = m + 1
    · subst hje
      exact pastLightConeScan_hit history obs (m + 1) (by omega) hhit
    · have hjm : j ≤ m := by omega
      have hnot : ¬ segmentHit history obs (m + 1) :=
        hmax (m + 1) (by omega) le_rfl
      rw [pastLightConeScan_no_hit history obs (m + 1) (by omega) hnot]
      simp only [Nat.add_sub_cancel]
      exact ih j h1 hjm hhit fun k hk1 hk2 => hmax k hk1 (by omega)

/-- When the history is nonempty and the latest-at-or-before search
succeeds, the whole intersection function is the backward scan started at
the computed start index. -/
lemma pastLightCone_eq_scan (wl : WorldLine) (obs : Vector4)
    (hne : wl.history.length ≠ 0)
    (hlast : 0 ≤ findLatestIndexAtOrBeforeTime wl.history obs.t) :
    pastLightConeIntersectionWorldLine wl obs =
      pastLightConeScan wl.history obs (startScanIdx wl obs) := by
  unfold pastLightConeIntersectionWorldLine startScanIdx
  rw [if_neg hne, if_neg (not_lt.mpr hlast)]

/-- The start index of the scan never exceeds the last history index. -/
lemma startScanIdx_le (wl : WorldLine) (obs : Vector4)
    (h1 : 1 ≤ wl.history.length) :
    startScanIdx wl obs ≤ wl.history.length - 1 := by
  unfold startScanIdx
  have hmin := min_le_left ((wl.history.length : ℤ) - 1)
    (findLatestIndexAtOrBeforeTime wl.history obs.t + 1)
  omega

/-- Evaluation fact used by the scenario proofs. -/
lemma sqrt_100 : Real.sqrt 100 = 10 := by
  rw [show (100 : ℝ) = 10 ^ 2 by norm_num,
    Real.sqrt_sq (by norm_num : (0:ℝ) ≤ 10)]

/-- For the single-sample history the search lands on index 0. -/
lemma findLatest_single :
    findLatestIndexAtOrBeforeTime [emitterSample] observerEvent.t = 0 := by
  unfold findLatestIndexAtOrBeforeTime histGet emitterSample observerEvent
  norm_num

/-- For the two-sample history the search lands on index 1. -/
lemma findLatest_double :
    findLatestIndexAtOrBeforeTime [emitterSample, emitterSample1]
      observerEvent.t = 1 := by
  unfold findLatestIndexAtOrBeforeTime histGet emitterSample emitterSample1
    observerEvent
  norm_num

/-- The null-crossing parameter of the segment between the two emitter
samples, relative to the observer event, is exactly 0. -/
lemma param_segment :
    findLightlikeIntersectionParam emitterSample.pos emitterSample1.pos
      observerEvent = 0 := by
  unfold findLightlikeIntersectionParam emitterSample emitterSample1
    observerEvent subVector4 lorentzDotVector4 createVector4
  norm_num
  rw [sqrt_100]
  norm_num

/-- The segment between the two emitter samples hits the past light cone
of the observer event. -/
lemma segmentHit_double : segmentHit [emitterSample, emitterSample1]
    observerEvent 1 := by
  rw [segmentHit_def]
  have hg0 : histGet [emitterSample, emitterSample1] 0 = emitterSample := rfl
  have hg1 : histGet [emitterSample, emitterSample1] 1 = emitterSample1 := rfl
  norm_num [hg0, hg1, param_segment]
  unfold emitterSample emitterSample1 observerEvent subVector4 createVector4
  norm_num

/-- The scan over the two-sample history starts at index 1. -/
lemma startScanIdx_double : startScanIdx
    ⟨[emitterSample, emitterSample1], 1000⟩ observerEvent = 1 := by
  unfold startScanIdx
  norm_num [findLatest_double]

end LorentzArena

namespace LorentzArena

/-- Claim C1, counterexample: at the exactly null-separated scenario (one
history sample of a stationary emitter at (t=0, x=10, y=0, z=0), observer
at (t=10, x=0, y=0, z=0)), the canonical pastLightConeIntersectionWorldLine
returns none, not a non-null PhaseSpace: its backward segment scan starts
at index min(length-1, lastPastIdx+1) = 0 and so never runs for a
single-sample history. -/
theorem c1_single_sample_counterexample :
    pastLightConeIntersectionWorldLine ⟨[emitterSample], 1000⟩
      observerEvent = none := by
  simp only [pastLightConeIntersectionWorldLine]
  norm_num [findLatest_single]
  exact pastLightConeScan_zero _ _

/-- Claim C1, amended: on the single-sample null-separated scenario the
canonical (1+1) pastLightConeIntersectionWorldLine returns none, because
its backward scan needs at least two samples; the interpolating variant
of src/src/physics/worldLine.ts does report the intersection there,
returning the sample; and once the same stationary emitter is recorded a
second time (at t=1), the canonical function also reports the
intersection, returning the t=0 sample. -/
theorem c1_null_separated_visibility :
    pastLightConeIntersectionWorldLine ⟨[emitterSample], 1000⟩
        observerEvent = none ∧
    Interp.pastLightConeIntersectionWorldLine ⟨[interpEmitterSample], 1000⟩
        observerEvent = some interpEmitterSample ∧
    pastLightConeIntersectionWorldLine ⟨[emitterSample, emitterSample1], 1000⟩
        observerEvent = some emitterSample := by
  refine ⟨?_, ?_, ?_⟩
  · simp only [pastLightConeIntersectionWorldLine]
    norm_num [findLatest_single]
    exact pastLightConeScan_zero _ _
  · simp only [Interp.pastLightConeIntersectionWorldLine]
    norm_num
    constructor
    · unfold Interp.histGet interpEmitterSample observerEvent subVector4
        createVector4
      norm_num
    · rfl
  · have hne' : ([emitterSample, emitterSample1] :
        List PhaseSpace).length ≠ 0 := by norm_num
    rw [pastLightCone_eq_scan _ _ hne' (by rw [findLatest_double]; norm_num)]
    rw [startScanIdx_double]
    rw [pastLightConeScan_hit _ _ 1 one_ne_zero segmentHit_double]
    rfl

/-- Claim C2: the causality guard of the game loop rejects the tick (and
then the guarded update leaves the state unchanged) exactly when some
other recorded event e has e.t at or before the own time and the
separation e.pos - selfPos.pos has negative Minkowski square; two agents
at rest at the same coordinate time with different spatial positions are
always allowed to move. -/
theorem c2_causality_guard (self : PhaseSpace) (others : List Vector4)
    (proposed : PhaseSpace) :
    (isMotionAllowed self.pos others = false ↔
      ∃ e ∈ others, e.t ≤ self.pos.t ∧
        lorentzDotVector4 (subVector4 e self.pos)
          (subVector4 e self.pos) < 0) ∧
    (isMotionAllowed self.pos others = false →
      guardedUpdate self others proposed = self) ∧
    (isMotionAllowed self.pos others = true →
      guardedUpdate self others proposed = proposed) ∧
    ((∀ e ∈ others, e.t = self.pos.t ∧
        (e.x ≠ self.pos.x ∨ e.y ≠ self.pos.y ∨ e.z ≠ self.pos.z)) →
      isMotionAllowed self.pos others = true) := by
  refine ⟨isMotionAllowed_false_iff self.pos others, ?_, ?_, ?_⟩
  · intro h
    unfold guardedUpdate
    rw [h]
    simp
  · intro h
    unfold guardedUpdate
    rw [h]
    simp
  · intro hsc
    rcases h : isMotionAllowed self.pos others with _ | _
    · exfalso
      obtain ⟨e, he, hle, hdot⟩ :=
        (isMotionAllowed_false_iff self.pos others).mp h
      obtain ⟨ht, _⟩ := hsc e he
      unfold lorentzDotVector4 subVector4 createVector4 at hdot
      simp only at hdot
      rw [ht] at hdot
      nlinarith [mul_self_nonneg (e.x - self.pos.x),
        mul_self_nonneg (e.y - self.pos.y), mul_self_nonneg (e.z - self.pos.z)]
    · rfl

/-- Claim C3: whenever the backward scan of
pastLightConeIntersectionWorldLine reaches a segment whose null-crossing
parameter lies in [0,1] (some segment at or below the start index hits),
the function returns the older endpoint of the first such segment found
scanning backward, verbatim: an exact, uninterpolated member of the
history. -/
theorem c3_raw_endpoint_return (wl : WorldLine) (obs : Vector4)
    (hne : wl.history ≠ [])
    (hlast : 0 ≤ findLatestIndexAtOrBeforeTime wl.history obs.t)
    (hex : ∃ j, 1 ≤ j ∧ j ≤ startScanIdx wl obs ∧
      segmentHit wl.history obs j) :
    ∃ j, 1 ≤ j ∧ j ≤ startScanIdx wl obs ∧ segmentHit wl.history obs j ∧
      (∀ k, j < k → k ≤ startScanIdx wl obs →
        ¬ segmentHit wl.history obs k) ∧
      pastLightConeIntersectionWorldLine wl obs =
        some (histGet wl.history (j - 1)) ∧
      histGet wl.history (j - 1) ∈ wl.history := by
  classical
  obtain ⟨j0, hj1, hj2, hj3⟩ := hex
  have hne' : wl.history.length ≠ 0 := by
    simpa using fun hc => hne (List.eq_nil_of_length_eq_zero hc)
  haveI hdec : DecidablePred (fun j => 1 ≤ j ∧ segmentHit wl.history obs j) :=
    Classical.decPred _
  have hPj0 : (fun j => 1 ≤ j ∧ segmentHit wl.history obs j) j0 := ⟨hj1, hj3⟩
  have hPJ : (fun j => 1 ≤ j ∧ segmentHit wl.history obs j)
      (Nat.findGreatest (fun j => 1 ≤ j ∧ segmentHit wl.history obs j)
        (startScanIdx wl obs)) :=
    @Nat.findGreatest_spec j0 (fun j => 1 ≤ j ∧ segmentHit wl.history obs j)
      hdec (startScanIdx wl obs) hj2 hPj0
  set J := Nat.findGreatest (fun j => 1 ≤ j ∧ segmentHit wl.history obs j)
    (startScanIdx wl obs) with hJdef
  have hJ1 : 1 ≤ J := hPJ.1
  have hJhit : segmentHit wl.history obs J := hPJ.2
  have hJle : J ≤ startScanIdx wl obs := Nat.findGreatest_le _
  have hmax : ∀ k, J < k → k ≤ startScanIdx wl obs →
      ¬ segmentHit wl.history obs k := by
    intro k hk1 hk2 hk3
    exact Nat.findGreatest_is_greatest hk1 hk2 ⟨by omega, hk3⟩
  have heq := pastLightCone_eq_scan wl obs hne' hlast
  have hscan := pastLightConeScan_first_hit wl.history obs
    (startScanIdx wl obs) J hJ1 hJle hJhit hmax
  have hlt : J - 1 < wl.history.length := by
    have hstart := startScanIdx_le wl obs (by omega)
    omega
  refine ⟨J, hJ1, hJle, hJhit, hmax, heq.trans hscan, ?_⟩
  unfold histGet
  rw [List.getD_eq_getElem wl.history phaseSpaceZero hlt]
  exact List.getElem_mem hlt

/-- Witness for claim C3: the two-sample stationary emitter history and
the observer at (t=10, 0, 0, 0) satisfy the hypotheses, and the function
returns the t=0 sample, the older endpoint of the hitting segment. -/
theorem c3_raw_endpoint_return_witness :
    (⟨[emitterSample, emitterSample1], 1000⟩ : WorldLine).history ≠ [] ∧
    0 ≤ findLatestIndexAtOrBeforeTime
      (⟨[emitterSample, emitterSample1], 1000⟩ : WorldLine).history
      observerEvent.t ∧
    (∃ j, 1 ≤ j ∧ j ≤ startScanIdx
        ⟨[emitterSample, emitterSample1], 1000⟩ observerEvent ∧
      segmentHit
        (⟨[emitterSample, emitterSample1], 1000⟩ : WorldLine).history
        observerEvent j) ∧
    (∃ j, 1 ≤ j ∧ j ≤ startScanIdx
        ⟨[emitterSample, emitterSample1], 1000⟩ observerEvent ∧
      segmentHit
        (⟨[emitterSample, emitterSample1], 1000⟩ : WorldLine).history
        observerEvent j ∧
      (∀ k, j < k → k ≤ startScanIdx
          ⟨[emitterSample, emitterSample1], 1000⟩ observerEvent →
        ¬ segmentHit
          (⟨[emitterSample, emitterSample1], 1000⟩ : WorldLine).history
          observerEvent k) ∧
      pastLightConeIntersectionWorldLine
          ⟨[emitterSample, emitterSample1], 1000⟩ observerEvent =
        some (histGet
          (⟨[emitterSample, emitterSample1], 1000⟩ : WorldLine).history
          (j - 1)) ∧
      histGet (⟨[emitterSample, emitterSample1], 1000⟩ : WorldLine).history
          (j - 1) ∈
        (⟨[emitterSample, emitterSample1], 1000⟩ : WorldLine).history) := by
  have h1 : (⟨[emitterSample, emitterSample1], 1000⟩ : WorldLine).history
      ≠ [] := by simp
  have h2 : 0 ≤ findLatestIndexAtOrBeforeTime
      (⟨[emitterSample, emitterSample1], 1000⟩ : WorldLine).history
      observerEvent.t := by
    rw [show (⟨[emitterSample, emitterSample1], 1000⟩ : WorldLine).history =
      [emitterSample, emitterSample1] from rfl]
    rw [findLatest_double]
    norm_num
  have h3 : ∃ j, 1 ≤ j ∧ j ≤ startScanIdx
      ⟨[emitterSample, emitterSample1], 1000⟩ observerEvent ∧
      segmentHit
        (⟨[emitterSample, emitterSample1], 1000⟩ : WorldLine).history
        observerEvent j := by
    refine ⟨1, le_rfl, ?_, segmentHit_double⟩
    rw [startScanIdx_double]
  exact ⟨h1, h2, h3, c3_raw_endpoint_return
    ⟨[emitterSample, emitterSample1], 1000⟩ observerEvent h1 h2 h3⟩

end LorentzArena

namespace LorentzArena

/-- Claim C4: for every nonempty world line whose oldest sample lies
strictly in the observer future, pastLightConeIntersectionWorldLine
returns none as an ordinary value (the embedded function is total; no
exceptional path exists). -/
theorem c4_observer_predates_history (wl : WorldLine) (obs : Vector4)
    (hne : wl.history ≠ [])
    (h : obs.t < (histGet wl.history 0).pos.t) :
    pastLightConeIntersectionWorldLine wl obs = none := by
  have hne' : wl.history.length ≠ 0 := by
    simpa using fun hc => hne (List.eq_nil_of_length_eq_zero hc)
  have hf : findLatestIndexAtOrBeforeTime wl.history obs.t = -1 := by
    unfold findLatestIndexAtOrBeforeTime
    rw [if_neg hne', if_pos h]
  simp only [pastLightConeIntersectionWorldLine]
  rw [if_neg hne', hf]
  norm_num

/-- Witness for claim C4: a single sample at t=5 with the observer at
t=0 gives none. -/
theorem c4_observer_predates_history_witness :
    (⟨[futureSample], 1000⟩ : WorldLine).history ≠ [] ∧
    originEvent.t <
      (histGet (⟨[futureSample], 1000⟩ : WorldLine).history 0).pos.t ∧
    pastLightConeIntersectionWorldLine ⟨[futureSample], 1000⟩
      originEvent = none := by
  have h1 : (⟨[futureSample], 1000⟩ : WorldLine).history ≠ [] := by simp
  have h2 : originEvent.t <
      (histGet (⟨[futureSample], 1000⟩ : WorldLine).history 0).pos.t := by
    norm_num [histGet, futureSample, originEvent]
  exact ⟨h1, h2,
    c4_observer_predates_history ⟨[futureSample], 1000⟩ originEvent h1 h2⟩

/-- Claim C5: appending a list of more than C samples one at a time to a
freshly created world line of capacity C at least 1 retains exactly the
last C appended samples in order, the resulting length is C, and after
any sequence of appends the length never exceeds C. -/
theorem c5_ring_buffer (C : ℕ) (l : List PhaseSpace) (hC : 1 ≤ C)
    (hN : C < l.length) :
    (l.foldl appendWorldLine (createWorldLine C)).history =
        l.drop (l.length - C) ∧
    (l.foldl appendWorldLine (createWorldLine C)).history.length = C ∧
    ∀ l2 : List PhaseSpace,
      (l2.foldl appendWorldLine (createWorldLine C)).history.length ≤ C := by
  have hbase : (createWorldLine C).history.length ≤
      (createWorldLine C).maxHistorySize := by
    simp [createWorldLine]
  have hmain := (foldl_appendWorldLine l (createWorldLine C) hbase).1
  simp only [createWorldLine, List.nil_append, List.length_nil,
    Nat.zero_add] at hmain
  simp only [createWorldLine]
  refine ⟨hmain, ?_, ?_⟩
  · rw [hmain]
    simp only [List.length_drop]
    omega
  · intro l2
    have h2 := (foldl_appendWorldLine l2 (createWorldLine C) hbase).1
    simp only [createWorldLine, List.nil_append, List.length_nil,
      Nat.zero_add] at h2
    rw [h2]
    simp only [List.length_drop]
    omega

/-- Witness for claim C5: capacity 1 with two appended samples retains
exactly the second sample. -/
theorem c5_ring_buffer_witness :
    (1 : ℕ) ≤ 1 ∧ 1 < ([sampleA, sampleB] : List PhaseSpace).length ∧
    (([sampleA, sampleB] : List PhaseSpace).foldl appendWorldLine
        (createWorldLine 1)).history =
      ([sampleA, sampleB] : List PhaseSpace).drop
        (([sampleA, sampleB] : List PhaseSpace).length - 1) ∧
    (([sampleA, sampleB] : List PhaseSpace).foldl appendWorldLine
        (createWorldLine 1)).history.length = 1 ∧
    ∀ l2 : List PhaseSpace,
      (l2.foldl appendWorldLine (createWorldLine 1)).history.length ≤ 1 := by
  have h1 : (1 : ℕ) ≤ 1 := le_rfl
  have h2 : 1 < ([sampleA, sampleB] : List PhaseSpace).length := by norm_num
  obtain ⟨ha, hb, hc⟩ := c5_ring_buffer 1 [sampleA, sampleB] h1 h2
  exact ⟨h1, h2, ha, hb, hc⟩

/-- Claim C6: the implied full 4-velocity (gamma(u), u) has Minkowski
square -1 for every finite u, and in particular for the velocity of every
output of evolvePhaseSpace; the normalization holds by the parametrization
alone, with no renormalization step in any embedded operation. -/
theorem c6_velocity4_normalized (u : Vector3) (ps : PhaseSpace)
    (a : Vector3) (dTau : ℝ) :
    lorentzDotVector4 (getVelocity4 u) (getVelocity4 u) = -1 ∧
    lorentzDotVector4 (getVelocity4 ((evolvePhaseSpace ps a dTau).u))
      (getVelocity4 ((evolvePhaseSpace ps a dTau).u)) = -1 :=
  ⟨velocity4_norm u, velocity4_norm ((evolvePhaseSpace ps a dTau).u)⟩

/-- Claim C7: a zero proper-time step is the identity on phase space,
for every state and every proper acceleration. -/
theorem c7_evolve_zero_identity (ps : PhaseSpace) (a : Vector3) :
    evolvePhaseSpace ps a 0 = ps := by
  cases ps with
  | mk pos u =>
    cases pos; cases u
    simp only [evolvePhaseSpace, createPhaseSpace, addVector3, scaleVector3,
      addVector4, scaleVector4, getVelocity4, createVector4, createVector3,
      spatialVector4, PhaseSpace.mk.injEq, Vector4.mk.injEq, Vector3.mk.injEq]
    norm_num

/-- Claim C8: every strictly positive proper-time step strictly advances
the coordinate time, because the time component of the new 4-velocity is
gamma of the new spatial velocity, which is at least 1. -/
theorem c8_time_advances (ps : PhaseSpace) (a : Vector3) (dTau : ℝ)
    (h : 0 < dTau) :
    ps.pos.t < (evolvePhaseSpace ps a dTau).pos.t := by
  rw [evolvePhaseSpace_pos_t]
  nlinarith [mul_pos (gamma_pos ((evolvePhaseSpace ps a dTau).u)) h]

/-- Witness for claim C8: a unit step from the origin sample advances
its coordinate time. -/
theorem c8_time_advances_witness :
    (0 : ℝ) < 1 ∧
    sampleA.pos.t < (evolvePhaseSpace sampleA ⟨1, 0, 0⟩ 1).pos.t :=
  ⟨one_pos, c8_time_advances sampleA ⟨1, 0, 0⟩ 1 one_pos⟩

/-- Claim C9: from rest, the boost matrix is the identity (the explicit
zero branch of lorentzBoost), so evolving with proper acceleration
(1,0,0) over dTau = 1 gives newU.x = 1 and gamma(newU) = sqrt 2. -/
theorem c9_evolve_from_rest (pos : Vector4) :
    inverseLorentzBoost ⟨0, 0, 0⟩ = matrix4Identity ∧
    (evolvePhaseSpace ⟨pos, ⟨0, 0, 0⟩⟩ ⟨1, 0, 0⟩ 1).u.x = 1 ∧
    gamma ((evolvePhaseSpace ⟨pos, ⟨0, 0, 0⟩⟩ ⟨1, 0, 0⟩ 1).u)
      = Real.sqrt 2 := by
  have hU : (evolvePhaseSpace ⟨pos, ⟨0, 0, 0⟩⟩ ⟨1, 0, 0⟩ 1).u
      = (⟨1, 0, 0⟩ : Vector3) := by
    simp only [evolvePhaseSpace, boost_zero, createPhaseSpace,
      createVector4, multiplyVector4Matrix4, getMatrix4, matrix4Identity,
      spatialVector4, addVector3, scaleVector3, createVector3,
      Vector3.mk.injEq]
    norm_num
  refine ⟨boost_zero, ?_, ?_⟩
  · rw [hU]
  · rw [hU]
    unfold gamma lengthSquaredVector3 dotVector3
    norm_num

/-- Claim C10: appendWorldLine is a pure function of its arguments: the
input world line is untouched, the returned world line carries the same
maxHistorySize, and its history is freshly computed from the old history
and the new sample (the extended list, with the head dropped when the
capacity is exceeded). -/
theorem c10_append_pure (wl : WorldLine) (ps : PhaseSpace) :
    (appendWorldLine wl ps).maxHistorySize = wl.maxHistorySize ∧
    (appendWorldLine wl ps).history =
      (if (wl.history ++ [ps]).length > wl.maxHistorySize then
        (wl.history ++ [ps]).tail else wl.history ++ [ps]) := by
  constructor
  · exact appendWorldLine_maxHistorySize wl ps
  · simp only [appendWorldLine]
    split <;> rfl

end LorentzArena
